import Mathlib

/-!
Shallow embedding of `src/sync_notion_pages.py`.

The script synchronizes local `model_a.txt` / `model_b.txt` files into Notion
child pages.  All effectful inputs (environment variables, HTTP responses,
the filesystem) are supplied through an explicit `Env` record; the driver
threads a `SyncState` that holds the counters and result lists of `main`
together with an observable trace of the requests it issued and the files it
read.  Python strings are `String` (the payload chunks use `List Char` so
that slicing is structural); Python `set` is a duplicate-free `List String`
built by `setAdd`; an uncaught exception (`SystemExit` from `get_headers`,
or a JSON-decode error on a success response) is the `.error` branch of
`Except`, carrying the state at the moment it was raised.  `time.sleep`
calls are pure pacing and are not modelled.
-/

namespace SyncNotion

/-- `NOTION_API` constant of the script. -/
def NOTION_API : String := "https://api.notion.com/v1"

/-- `NOTION_VERSION` constant of the script. -/
def NOTION_VERSION : String := "2022-06-28"

/-- `TASK_IDS` dict: task number 1..20 to Notion page id. -/
def TASK_IDS : Nat → Option String
  | 1 => some "3132484b-84ae-81b8-a2cb-deff086bb4d0"
  | 2 => some "3132484b-84ae-8156-8da3-d147e36748ea"
  | 3 => some "3132484b-84ae-8195-a5a4-e4a232609ec5"
  | 4 => some "3132484b-84ae-8194-90ab-fa7c630def92"
  | 5 => some "3132484b-84ae-81d3-b976-f8b42819c43d"
  | 6 => some "3132484b-84ae-81eb-a9bc-e1470415bb2f"
  | 7 => some "3132484b-84ae-81df-abee-e9203676ade7"
  | 8 => some "3132484b-84ae-8139-87c6-d49a95e78121"
  | 9 => some "3132484b-84ae-812d-9350-c1b871d01b2e"
  | 10 => some "3132484b-84ae-811b-a59d-e3e596559c4d"
  | 11 => some "3132484b-84ae-81be-a7f8-c7b133653018"
  | 12 => some "3132484b-84ae-8184-849a-c4b411dd45c5"
  | 13 => some "3132484b-84ae-8194-8a34-f0f133932a0b"
  | 14 => some "3132484b-84ae-819b-a6d9-f54aab756169"
  | 15 => some "3132484b-84ae-812b-9f1a-fd53b993a1e8"
  | 16 => some "3132484b-84ae-81a3-a79d-dbdaa16d24fa"
  | 17 => some "3132484b-84ae-8139-904f-c718fcffdbdc"
  | 18 => some "3132484b-84ae-81d5-80b3-cd809f4c7578"
  | 19 => some "3132484b-84ae-81d4-9e09-cc17e43d99a7"
  | 20 => some "3132484b-84ae-8173-a8a1-f4fcc34cb8fe"
  | _ => none

/-- Python truthiness of `os.environ.get(...)`: `None` and `""` are falsy. -/
def truthyStr : Option String → Bool
  | none => false
  | some s => if s = "" then false else true

/-- `get_headers()`: reads `NOTION_API_KEY or NOTION_KEY`; raises `SystemExit`
(the `.error` branch) when the result is falsy, otherwise builds the header
dict fresh. -/
def get_headers (vars : String → Option String) :
    Except String (List (String × String)) :=
  let token := if truthyStr (vars "NOTION_API_KEY") then vars "NOTION_API_KEY"
               else vars "NOTION_KEY"
  if truthyStr token = false then
    .error "Error: NOTION_API_KEY or NOTION_KEY environment variable required"
  else
    .ok [("Authorization", "Bearer " ++ token.getD ""),
         ("Content-Type", "application/json"),
         ("Notion-Version", NOTION_VERSION)]

/-- One `{"type": "text", "text": {"content": chunk}}` rich-text object. -/
structure TextChunk where
  type : String
  content : List Char
deriving DecidableEq

/-- The loop of `split_rich_text`, structurally recursive on a fuel that
bounds the number of iterations of the Python `for i in range(0, len, step)`
loop (each iteration consumes at least one character when the step is
positive, so `content.length` fuel is enough). -/
def splitRichTextGo (fuel : Nat) (content : List Char) (chunk_size : Nat) :
    List TextChunk :=
  match fuel with
  | 0 => []
  | fuel + 1 =>
    if content = [] then []
    else if chunk_size = 0 then []
    else ⟨"text", content.take chunk_size⟩ ::
      splitRichTextGo fuel (content.drop chunk_size) chunk_size

/-- `split_rich_text(content, chunk_size)`: slices `content[i : i + chunk_size]`
for `i = 0, chunk_size, 2*chunk_size, ...` (Python raises on step 0, so the
`chunk_size = 0` guard is unreachable for the positive caps the script uses). -/
def split_rich_text (content : List Char) (chunk_size : Nat) : List TextChunk :=
  splitRichTextGo content.length content chunk_size

/-- An element of a fragment-list title: the listing code keeps only `dict`
entries and reads their `"plain_text"` key (default `""`). -/
inductive Fragment
  | dict (plain_text : Option String)
  | nondict
deriving DecidableEq

/-- The `"title"` value of a `child_page` block as the JSON may present it:
a string, a list of styled fragments, or some other shape (whose Python
`str()` rendering the `other` constructor carries). -/
inductive TitleVal
  | str (s : String)
  | list (frags : List Fragment)
  | other (str_repr : String)
deriving DecidableEq

/-- The `"child_page"` object of a block. -/
structure ChildPage where
  title : Option TitleVal
deriving DecidableEq

/-- A block of a list-children response: its `"type"` and `"child_page"` keys. -/
structure Block where
  type : Option String
  child_page : Option ChildPage
deriving DecidableEq

/-- `block.get("child_page", {}).get("title", "")`. -/
def blockTitle (b : Block) : TitleVal :=
  match b.child_page with
  | none => .str ""
  | some cp => cp.title.getD (.str "")

/-- `t.get("plain_text", "")` for the `dict` fragments, non-dicts filtered out. -/
def fragParts : List Fragment → List String
  | [] => []
  | .dict p :: rest => p.getD "" :: fragParts rest
  | .nondict :: rest => fragParts rest

/-- Normalization of a title value to the single string added to `existing`:
string as-is, fragment list joined, anything else via `str()`. -/
def normalizeTitle : TitleVal → String
  | .str s => s
  | .list frags => String.join (fragParts frags)
  | .other r => r

/-- `set.add`: Python-set semantics over a duplicate-free list. -/
def setAdd (acc : List String) (t : String) : List String :=
  if t ∈ acc then acc else acc ++ [t]

/-- The `for block in data.get("results", [])` body of `get_existing_children`. -/
def addBlocks (blocks : List Block) (acc : List String) : List String :=
  blocks.foldl
    (fun a b =>
      if b.type = some "child_page" then setAdd a (normalizeTitle (blockTitle b))
      else a)
    acc

/-- One parsed response of `GET /blocks/{id}/children`: status code, `results`,
`has_next` (absent key is falsy) and `next_cursor`. -/
structure ListResponse where
  status_code : Nat
  results : List Block
  has_next : Bool
  next_cursor : Option String
deriving DecidableEq

/-- The `while True` pagination loop of `get_existing_children`.  `stream` is
the finite sequence of responses the server returns to successive requests;
`cursor` is the `start_cursor` of the next request; `reqs` logs the cursor of
every GET issued.  Headers are rebuilt (and the missing-credential
`SystemExit` can fire) on every iteration, before the GET. -/
def gecGo (vars : String → Option String) (stream : List ListResponse)
    (cursor : Option String) (acc : List String) (reqs : List (Option String)) :
    Except (String × List (Option String)) (List String × List (Option String)) :=
  match stream with
  | [] =>
    match get_headers vars with
    | .error e => .error (e, reqs)
    | .ok _ => .ok (acc, reqs)
  | r :: rest =>
    match get_headers vars with
    | .error e => .error (e, reqs)
    | .ok _ =>
      let reqs := reqs ++ [cursor]
      if r.status_code ≠ 200 then .ok (acc, reqs)
      else
        let acc := addBlocks r.results acc
        if r.has_next then gecGo vars rest r.next_cursor acc reqs
        else .ok (acc, reqs)

/-- `get_existing_children(page_id)` over the response stream of that page:
returns the accumulated titles together with the GET-cursor trace, or the
`SystemExit` message if `get_headers` raised. -/
def get_existing_children (vars : String → Option String)
    (stream : List ListResponse) :
    Except (String × List (Option String)) (List String × List (Option String)) :=
  gecGo vars stream none [] []

/-- The pure title accumulation of the pagination loop (no headers, no trace):
what `get_existing_children` returns when the credential is present. -/
def gatherTitles : List ListResponse → List String → List String
  | [], acc => acc
  | r :: rest, acc =>
    if r.status_code ≠ 200 then acc
    else
      let acc := addBlocks r.results acc
      if r.has_next then gatherTitles rest acc else acc

/-- The JSON body of a create-page response, reduced to the keys the script
reads (`message`, `code`, `url`); `extra` records whether the dict has any
further keys, so that Python dict truthiness is `jsonTruthy`. -/
structure JsonObj where
  message : Option String
  code : Option String
  url : Option String
  extra : Bool
deriving DecidableEq

/-- Python truthiness of the parsed dict (nonempty). -/
def jsonTruthy (j : JsonObj) : Bool :=
  j.message.isSome || j.code.isSome || j.url.isSome || j.extra

/-- An HTTP response to the create POST: status, raw `r.text`, and `r.json()`
(`none` when the body does not parse as JSON). -/
structure RespBody where
  status_code : Nat
  text : String
  json : Option JsonObj
deriving DecidableEq

/-- The `code` block payload sent by `create_child_page`. -/
structure CodeBlockPayload where
  rich_text : List TextChunk
  language : String
deriving DecidableEq

/-- The create-page payload: parent page id, title property, children blocks. -/
structure CreatePayload where
  parent_page_id : String
  title_prop : List TextChunk
  children : List CodeBlockPayload
deriving DecidableEq

/-- Payload construction of `create_child_page`: content split into
2000-char rich-text chunks inside one plain-text `code` block. -/
def mkCreatePayload (parent_id title content : String) : CreatePayload :=
  { parent_page_id := parent_id
    title_prop := [⟨"text", title.toList⟩]
    children := [⟨split_rich_text content.toList 2000, "plain text"⟩] }

/-- Outcome of `create_child_page`: either an uncaught exception (`fatal`,
with `posted` recording whether the POST was issued before it was raised) or
the `(result, err)` pair the function returns. -/
inductive CPOutcome
  | fatal (msg : String) (posted : Bool)
  | done (payload : CreatePayload) (result : Option JsonObj) (err : Option String)
deriving DecidableEq

/-- `create_child_page(parent_id, title, content)` applied to the response
`resp` the server gives to its POST.  Success needs status 200 or 201 and a
JSON body; on failure the error is `f"{status}: {msg}"` with `msg` the body's
`message` key, else its `code` key, else the raw text. -/
def create_child_page (vars : String → Option String) (resp : RespBody)
    (parent_id title content : String) : CPOutcome :=
  let payload := mkCreatePayload parent_id title content
  match get_headers vars with
  | .error e => .fatal e false
  | .ok _ =>
    if resp.status_code = 200 ∨ resp.status_code = 201 then
      match resp.json with
      | some j => .done payload (some j) none
      | none => .fatal "requests.exceptions.JSONDecodeError" true
    else
      let err_body :=
        match resp.json with
        | some j => j.message.getD (j.code.getD resp.text)
        | none => resp.text
      .done payload none (some (toString resp.status_code ++ ": " ++ err_body))

/-- All effectful inputs of one run: environment variables, the list-children
response stream of each page id, the filesystem, and the response to each
create POST (keyed by parent id, title and content). -/
structure Env where
  vars : String → Option String
  listStream : String → List ListResponse
  fileExists : String → Bool
  fileContent : String → String
  createResp : String → String → String → RespBody

/-- The accumulating state of `main`, extended with the observable trace of
the run: list GETs issued, create POSTs issued, files read, (task, filename)
pairs visited by the inner loop, and successful creations with their URL. -/
structure SyncState where
  created : Nat
  skipped : Nat
  errors : List String
  sample_urls : List String
  listReqs : List (String × Option String)
  createReqs : List (Nat × String)
  fileReads : List String
  visits : List (Nat × String)
  successes : List (Nat × String × String)
deriving DecidableEq

/-- The state at the top of `main`. -/
def initState : SyncState :=
  { created := 0, skipped := 0, errors := [], sample_urls := []
    listReqs := [], createReqs := [], fileReads := [], visits := []
    successes := [] }

/-- `workspace / f"TASK_{task_num}" / filename`. -/
def filePath (t : Nat) (f : String) : String :=
  "/workspace/TASK_" ++ toString t ++ "/" ++ f

/-- `f"TASK_{task_num}/{filename}: ..."` error prefix. -/
def fileErrPrefix (t : Nat) (f : String) : String :=
  "TASK_" ++ toString t ++ "/" ++ f ++ ": "

/-- `err or 'Create failed'`. -/
def errOrDefault : Option String → String
  | none => "Create failed"
  | some e => if e = "" then "Create failed" else e

/-- The `if result: ... else: ...` tail of the per-file loop body, applied to
the outcome of `create_child_page`: log the POST, then on a truthy result
bump the created count, record the success and possibly a sample URL; on a
falsy result record the error message; a `fatal` outcome propagates the
exception (the POST is logged when it was issued before the raise). -/
def createOutcomeStep (t : Nat) (f : String) (st : SyncState) :
    CPOutcome → Except (String × SyncState) SyncState
  | .fatal e posted =>
    .error (e, if posted then { st with createReqs := st.createReqs ++ [(t, f)] } else st)
  | .done _payload result err =>
    let st := { st with createReqs := st.createReqs ++ [(t, f)] }
    match result with
    | some j =>
      if jsonTruthy j then
        let url := j.url.getD ""
        let st := { st with created := st.created + 1,
                            successes := st.successes ++ [(t, f, url)] }
        if url ≠ "" ∧ st.sample_urls.length < 5 then
          .ok { st with sample_urls := st.sample_urls ++ [url] }
        else .ok st
      else
        .ok { st with errors := st.errors ++ [fileErrPrefix t f ++ errOrDefault err] }
    | none =>
      .ok { st with errors := st.errors ++ [fileErrPrefix t f ++ errOrDefault err] }

/-- The body of the `for filename in [...]` loop of `main` for one filename:
skip if listed, record "File not found" if absent, else read the file and
create the child page, updating counters, errors and the sample-URL list. -/
def processFile (env : Env) (t : Nat) (parent_id : String)
    (existing : List String) (filename : String) (st : SyncState) :
    Except (String × SyncState) SyncState :=
  let st := { st with visits := st.visits ++ [(t, filename)] }
  if filename ∈ existing then
    .ok { st with skipped := st.skipped + 1 }
  else
    let filepath := filePath t filename
    if env.fileExists filepath = false then
      .ok { st with errors := st.errors ++ [fileErrPrefix t filename ++ "File not found"] }
    else
      let content := env.fileContent filepath
      let st := { st with fileReads := st.fileReads ++ [filepath] }
      createOutcomeStep t filename st
        (create_child_page env.vars (env.createResp parent_id filename content)
          parent_id filename content)

/-- The two expected filenames per task. -/
def expectedFiles : List String := ["model_a.txt", "model_b.txt"]

/-- Fold of `processFile` over the filename list. -/
def fileLoop (env : Env) (t : Nat) (parent_id : String) (existing : List String) :
    List String → SyncState → Except (String × SyncState) SyncState
  | [], st => .ok st
  | f :: fs, st =>
    match processFile env t parent_id existing f st with
    | .error e => .error e
    | .ok st => fileLoop env t parent_id existing fs st

/-- The body of the `for task_num in range(1, 21)` loop of `main` for one
task: record "No page ID" if the task has no mapping, otherwise list the
existing children and run the filename loop. -/
def processTask (env : Env) (t : Nat) (st : SyncState) :
    Except (String × SyncState) SyncState :=
  match TASK_IDS t with
  | none => .ok { st with errors := st.errors ++ ["TASK_" ++ toString t ++ ": No page ID"] }
  | some parent_id =>
    match get_existing_children env.vars (env.listStream parent_id) with
    | .error (e, reqs) =>
      .error (e, { st with listReqs := st.listReqs ++ reqs.map (fun c => (parent_id, c)) })
    | .ok (existing, reqs) =>
      let st := { st with listReqs := st.listReqs ++ reqs.map (fun c => (parent_id, c)) }
      fileLoop env t parent_id existing expectedFiles st

/-- The outer loop of `main` over the task numbers. -/
def mainLoop (env : Env) : List Nat → SyncState →
    Except (String × SyncState) SyncState
  | [], st => .ok st
  | t :: ts, st =>
    match processTask env t st with
    | .error e => .error e
    | .ok st => mainLoop env ts st

/-- Result of one run: a normal return of `main` with its exit value, or an
uncaught exception aborting the run; either way the observable state. -/
inductive RunResult
  | exited (code : Nat) (st : SyncState)
  | aborted (msg : String) (st : SyncState)
deriving DecidableEq

/-- `main()`: loop over `range(1, 21)` and `return 0 if not errors else 1`. -/
def main (env : Env) : RunResult :=
  match mainLoop env (List.range' 1 20) initState with
  | .error (msg, st) => .aborted msg st
  | .ok st => .exited (if st.errors = [] then 0 else 1) st

/-- The observable state of a run result. -/
def stateOf : RunResult → SyncState
  | .exited _ st => st
  | .aborted _ st => st

/-- The existing-children titles `main` computes for task `t` under `env`
(empty when the task has no page id). -/
def existingTitlesOf (env : Env) (t : Nat) : List String :=
  match TASK_IDS t with
  | none => []
  | some pid => gatherTitles (env.listStream pid) []

/-- The 40 `(task, filename)` pairs the driver's two nested loops visit. -/
def allPairs : List (Nat × String) :=
  (List.range' 1 20).flatMap (fun t => [(t, "model_a.txt"), (t, "model_b.txt")])

/-- The observable state of a driver step, whether it returned or raised. -/
def stateOfE : Except (String × SyncState) SyncState → SyncState
  | .error (_, st) => st
  | .ok st => st

/-- The cursor of each successive GET while the given responses are consumed:
the first request carries `cursor`, each later one the previous response's
`next_cursor`. -/
def cursorTrail (cursor : Option String) : List ListResponse → List (Option String)
  | [] => []
  | r :: rest => cursor :: cursorTrail r.next_cursor rest

/-- The cursor the request after the given responses would carry. -/
def endCursor (cursor : Option String) : List ListResponse → Option String
  | [] => cursor
  | r :: rest => endCursor r.next_cursor rest

/-- Titles accumulated from a prefix of fully-consumed responses. -/
def accumTitles (pre : List ListResponse) : List String :=
  pre.foldl (fun a r => addBlocks r.results a) []

/-- The plain-text field of a styled fragment, `""` for anything without one
(the spec's "concatenation of its fragments' plain-text fields"). -/
def fragPlainText : Fragment → String
  | .dict p => p.getD ""
  | .nondict => ""

/-- A `child_page` block with the given title value. -/
def cpBlock (tv : TitleVal) : Block :=
  { type := some "child_page", child_page := some { title := some tv } }

/-- The sample-URL invariant of the driver state: at most five sample URLs,
each nonempty and the URL of a recorded successful creation. -/
def sampleInv (st : SyncState) : Prop :=
  st.sample_urls.length ≤ 5 ∧
    ∀ u ∈ st.sample_urls, u ≠ "" ∧ u ∈ st.successes.map (fun x => x.2.2)

/-- Concrete environment variables with the credential set. -/
def vars0 : String → Option String :=
  fun k => if k = "NOTION_API_KEY" then some "tok" else none

/-- Concrete environment: every listing already shows both expected titles. -/
def envBoth : Env :=
  { vars := vars0
    listStream := fun _ =>
      [⟨200, [cpBlock (.str "model_a.txt"), cpBlock (.str "model_b.txt")], false, none⟩]
    fileExists := fun _ => false
    fileContent := fun _ => ""
    createResp := fun _ _ _ => ⟨500, "boom", none⟩ }

/-- Concrete environment: empty listings and no local files. -/
def envMissing : Env :=
  { envBoth with listStream := fun _ => [⟨200, [], false, none⟩] }

/-- Concrete environment with no credential variable set. -/
def envNoVars : Env :=
  { envBoth with vars := fun _ => none }

/-- Concrete environment: empty listings, files present, every creation
succeeds with a nonempty URL. -/
def envCreate : Env :=
  { vars := vars0
    listStream := fun _ => [⟨200, [], false, none⟩]
    fileExists := fun _ => true
    fileContent := fun _ => "hello"
    createResp := fun _ _ _ => ⟨200, "", some ⟨none, none, some "https://notion.so/x", true⟩⟩ }

/-- The headers `get_headers` builds from `vars0`. -/
def headers0 : List (String × String) :=
  [("Authorization", "Bearer tok"), ("Content-Type", "application/json"),
   ("Notion-Version", "2022-06-28")]

/-- A concrete first page: one `model_a.txt` child, more pages signalled. -/
def preW : List ListResponse :=
  [⟨200, [cpBlock (.str "model_a.txt")], true, some "cur1"⟩]

/-- A concrete non-success second page. -/
def badW : ListResponse := ⟨500, [cpBlock (.str "zzz")], false, none⟩

/-- A concrete successful final page. -/
def lastW : ListResponse := ⟨200, [cpBlock (.str "model_b.txt")], false, none⟩

/-- The `err_body` a failed creation reports: the JSON body's `message` key,
else its `code` key, else the raw response text. -/
def bodyMsg (resp : RespBody) : String :=
  match resp.json with
  | some j => j.message.getD (j.code.getD resp.text)
  | none => resp.text

/-- Concrete 409 response with a JSON `message` field. -/
def resp409 : RespBody := ⟨409, "raw", some ⟨some "conflict", none, none, false⟩⟩

/-- Concrete environment whose creation POSTs are rejected with `resp409`. -/
def env409 : Env :=
  { vars := vars0
    listStream := fun _ => [⟨200, [], false, none⟩]
    fileExists := fun _ => true
    fileContent := fun _ => "hi"
    createResp := fun _ _ _ => resp409 }

/-! ## Chunking utility -/

theorem splitRichTextGo_join (fuel : Nat) :
    ∀ (content : List Char) (cs : Nat), content.length ≤ fuel → 0 < cs →
      ((splitRichTextGo fuel content cs).map TextChunk.content).flatten = content := by
  induction fuel with
  | zero =>
    intro content cs h _
    have hc : content = [] := List.eq_nil_of_length_eq_zero (Nat.le_zero.mp h)
    subst hc
    simp [splitRichTextGo]
  | succ n ih =>
    intro content cs h hcs
    by_cases hc : content = []
    · subst hc; simp [splitRichTextGo]
    · have hcs0 : cs ≠ 0 := Nat.pos_iff_ne_zero.mp hcs
      simp only [splitRichTextGo, if_neg hc, if_neg hcs0, List.map_cons, List.flatten_cons]
      have hlen : (content.drop cs).length ≤ n := by
        have : 0 < content.length := List.length_pos.mpr hc
        simp only [List.length_drop]
        omega
      rw [ih (content.drop cs) cs hlen hcs, List.take_append_drop]

theorem splitRichTextGo_mem (fuel : Nat) :
    ∀ (content : List Char) (cs : Nat) (ch : TextChunk),
      ch ∈ splitRichTextGo fuel content cs →
      ch.type = "text" ∧ ch.content.length ≤ cs := by
  induction fuel with
  | zero => intro content cs ch h; simp [splitRichTextGo] at h
  | succ n ih =>
    intro content cs ch h
    by_cases hc : content = []
    · subst hc; simp [splitRichTextGo] at h
    · by_cases hcs0 : cs = 0
      · simp [splitRichTextGo, hc, hcs0] at h
      · simp only [splitRichTextGo, if_neg hc, if_neg hcs0, List.mem_cons] at h
        rcases h with h | h
        · subst h
          refine ⟨rfl, ?_⟩
          simp only [List.length_take]
          omega
        · exact ih (content.drop cs) cs ch h

/-- C1: for every string and every positive chunk cap, `split_rich_text`
produces text fragments whose contents concatenate, in order, to the input;
every fragment's content has length at most the cap; and the empty string
yields the empty sequence. -/
theorem c1_split_rich_text_round_trip (s : List Char) (C : Nat) (hC : 0 < C) :
    ((split_rich_text s C).map TextChunk.content).flatten = s
    ∧ (∀ ch ∈ split_rich_text s C, ch.type = "text" ∧ ch.content.length ≤ C)
    ∧ split_rich_text [] C = [] := by
  refine ⟨splitRichTextGo_join s.length s C le_rfl hC,
    fun ch h => splitRichTextGo_mem s.length s C ch h, rfl⟩

/-- Witness for C1 at a concrete input. -/
theorem c1_split_rich_text_round_trip_witness :
    0 < 3
    ∧ (((split_rich_text ['h', 'e', 'l', 'l', 'o'] 3).map TextChunk.content).flatten
        = ['h', 'e', 'l', 'l', 'o']
      ∧ (∀ ch ∈ split_rich_text ['h', 'e', 'l', 'l', 'o'] 3,
          ch.type = "text" ∧ ch.content.length ≤ 3)
      ∧ split_rich_text [] 3 = []) :=
  ⟨by decide, c1_split_rich_text_round_trip ['h', 'e', 'l', 'l', 'o'] 3 (by decide)⟩

/-! ## Pagination -/

theorem gecGo_err (vars : String → Option String) (e : String)
    (he : get_headers vars = .error e) (stream : List ListResponse)
    (cursor : Option String) (acc : List String) (reqs : List (Option String)) :
    gecGo vars stream cursor acc reqs = .error (e, reqs) := by
  cases stream <;> (rw [gecGo]; rw [he])

theorem gecGo_nil (vars : String → Option String) (hd : List (String × String))
    (hh : get_headers vars = .ok hd) (cursor : Option String) (acc : List String)
    (reqs : List (Option String)) :
    gecGo vars [] cursor acc reqs = .ok (acc, reqs) := by
  rw [gecGo, hh]

theorem gecGo_cons (vars : String → Option String) (hd : List (String × String))
    (hh : get_headers vars = .ok hd) (r : ListResponse) (rest : List ListResponse)
    (cursor : Option String) (acc : List String) (reqs : List (Option String)) :
    gecGo vars (r :: rest) cursor acc reqs =
      if r.status_code ≠ 200 then .ok (acc, reqs ++ [cursor])
      else if r.has_next then
        gecGo vars rest r.next_cursor (addBlocks r.results acc) (reqs ++ [cursor])
      else .ok (addBlocks r.results acc, reqs ++ [cursor]) := by
  conv_lhs => rw [gecGo]
  rw [hh]

theorem gecGo_ok_headers (vars : String → Option String)
    (stream : List ListResponse) (cursor : Option String) (acc : List String)
    (reqs : List (Option String)) (x : List String × List (Option String))
    (h : gecGo vars stream cursor acc reqs = .ok x) :
    ∃ hd, get_headers vars = .ok hd := by
  rcases hh : get_headers vars with e | hd
  · rw [gecGo_err vars e hh] at h; cases h
  · exact ⟨hd, rfl⟩

theorem gecGo_good_prefix (vars : String → Option String)
    (hd : List (String × String)) (hh : get_headers vars = .ok hd) :
    ∀ (pre : List ListResponse),
      (∀ r ∈ pre, r.status_code = 200 ∧ r.has_next = true) →
      ∀ (tail : List ListResponse) (cursor : Option String) (acc : List String)
        (reqs : List (Option String)),
      gecGo vars (pre ++ tail) cursor acc reqs
        = gecGo vars tail (endCursor cursor pre)
            (pre.foldl (fun a r => addBlocks r.results a) acc)
            (reqs ++ cursorTrail cursor pre) := by
  intro pre
  induction pre with
  | nil => intro _ tail cursor acc reqs; simp [endCursor, cursorTrail]
  | cons r rest ih =>
    intro hpre tail cursor acc reqs
    have hr := hpre r (List.mem_cons_self r rest)
    have hrest : ∀ x ∈ rest, x.status_code = 200 ∧ x.has_next = true :=
      fun x hx => hpre x (List.mem_cons_of_mem r hx)
    rw [List.cons_append, gecGo_cons vars hd hh]
    rw [if_neg (by simp [hr.1]), if_pos hr.2]
    rw [ih hrest tail r.next_cursor (addBlocks r.results acc) (reqs ++ [cursor])]
    simp [endCursor, cursorTrail, List.foldl_cons, List.append_assoc]

theorem gecGo_titles (vars : String → Option String)
    (hd : List (String × String)) (hh : get_headers vars = .ok hd) :
    ∀ (stream : List ListResponse) (cursor : Option String) (acc : List String)
      (reqs : List (Option String)),
      ∃ reqs2, gecGo vars stream cursor acc reqs
        = .ok (gatherTitles stream acc, reqs ++ reqs2) := by
  intro stream
  induction stream with
  | nil =>
    intro cursor acc reqs
    exact ⟨[], by rw [gecGo_nil vars hd hh, gatherTitles]; simp⟩
  | cons r rest ih =>
    intro cursor acc reqs
    by_cases hs : r.status_code = 200
    · by_cases hn : r.has_next = true
      · rcases ih r.next_cursor (addBlocks r.results acc) (reqs ++ [cursor]) with ⟨reqs2, hrec⟩
        refine ⟨[cursor] ++ reqs2, ?_⟩
        rw [gecGo_cons vars hd hh, if_neg (by simp [hs]), if_pos hn, hrec, gatherTitles]
        simp [hs, hn, List.append_assoc]
      · refine ⟨[cursor], ?_⟩
        rw [gecGo_cons vars hd hh, if_neg (by simp [hs]),
          if_neg (by simpa using hn), gatherTitles]
        simp [hs, hn]
    · refine ⟨[cursor], ?_⟩
      rw [gecGo_cons vars hd hh, if_pos (by simp [hs]), gatherTitles]
      simp [hs]

theorem get_existing_children_titles (vars : String → Option String)
    (hd : List (String × String)) (hh : get_headers vars = .ok hd)
    (stream : List ListResponse) :
    ∃ reqs, get_existing_children vars stream = .ok (gatherTitles stream [], reqs) := by
  rcases gecGo_titles vars hd hh stream none [] [] with ⟨reqs2, h⟩
  exact ⟨reqs2, by simpa [get_existing_children] using h⟩

/-- C5: while the credential is present, a non-success response mid-pagination
makes `get_existing_children` return (without raising) exactly the titles
accumulated from the successful responses before it; with no such response it
keeps requesting while `has_next` is set, each request advancing via the
previous response's `next_cursor`, and returns the full accumulation. -/
theorem c5_pagination (vars : String → Option String) (hd : List (String × String))
    (hh : get_headers vars = .ok hd) (pre : List ListResponse)
    (hpre : ∀ r ∈ pre, r.status_code = 200 ∧ r.has_next = true) :
    (∀ (bad : ListResponse) (rest : List ListResponse), bad.status_code ≠ 200 →
      get_existing_children vars (pre ++ bad :: rest)
        = .ok (accumTitles pre, cursorTrail none pre ++ [endCursor none pre]))
    ∧ (∀ last : ListResponse, last.status_code = 200 → last.has_next = false →
      get_existing_children vars (pre ++ [last])
        = .ok (addBlocks last.results (accumTitles pre),
               cursorTrail none pre ++ [endCursor none pre])) := by
  constructor
  · intro bad rest hbad
    rw [get_existing_children, gecGo_good_prefix vars hd hh pre hpre,
      gecGo_cons vars hd hh, if_pos (by simp [hbad])]
    simp [accumTitles]
  · intro last hs hn
    rw [get_existing_children, gecGo_good_prefix vars hd hh pre hpre,
      gecGo_cons vars hd hh, if_neg (by simp [hs]), if_neg (by simp [hn])]
    simp [accumTitles]

/-- Witness for C5 at a concrete two-page interaction and a concrete failure. -/
theorem c5_pagination_witness :
    get_headers vars0 = .ok headers0
    ∧ (∀ r ∈ preW, r.status_code = 200 ∧ r.has_next = true)
    ∧ badW.status_code ≠ 200
    ∧ lastW.status_code = 200 ∧ lastW.has_next = false
    ∧ get_existing_children vars0 (preW ++ badW :: [])
        = .ok (accumTitles preW, cursorTrail none preW ++ [endCursor none preW])
    ∧ get_existing_children vars0 (preW ++ [lastW])
        = .ok (addBlocks lastW.results (accumTitles preW),
               cursorTrail none preW ++ [endCursor none preW]) :=
  ⟨rfl, by decide, by decide, rfl, rfl,
   (c5_pagination vars0 headers0 rfl preW (by decide)).1 badW [] (by decide),
   (c5_pagination vars0 headers0 rfl preW (by decide)).2 lastW rfl rfl⟩

/-! ## Per-file step -/

theorem processFile_skip (env : Env) (t : Nat) (pid : String) (ex : List String)
    (f : String) (st : SyncState) (hf : f ∈ ex) :
    processFile env t pid ex f st
      = .ok { st with visits := st.visits ++ [(t, f)], skipped := st.skipped + 1 } := by
  simp [processFile, hf]

theorem processFile_notfound (env : Env) (t : Nat) (pid : String)
    (ex : List String) (f : String) (st : SyncState) (hf : f ∉ ex)
    (hex : env.fileExists (filePath t f) = false) :
    processFile env t pid ex f st
      = .ok { st with visits := st.visits ++ [(t, f)],
                      errors := st.errors ++ [fileErrPrefix t f ++ "File not found"] } := by
  simp [processFile, hf, hex]

theorem processFile_create (env : Env) (t : Nat) (pid : String)
    (ex : List String) (f : String) (st : SyncState) (hf : f ∉ ex)
    (hex : env.fileExists (filePath t f) = true) :
    processFile env t pid ex f st
      = createOutcomeStep t f
          { st with visits := st.visits ++ [(t, f)],
                    fileReads := st.fileReads ++ [filePath t f] }
          (create_child_page env.vars
            (env.createResp pid f (env.fileContent (filePath t f)))
            pid f (env.fileContent (filePath t f))) := by
  simp [processFile, hf, hex]

theorem createOutcomeStep_ok_spec (t : Nat) (f : String) (st : SyncState)
    (cp : CPOutcome) (st' : SyncState) (h : createOutcomeStep t f st cp = .ok st') :
    st'.created + st'.skipped + st'.errors.length
      = st.created + st.skipped + st.errors.length + 1
    ∧ st'.createReqs = st.createReqs ++ [(t, f)]
    ∧ st'.visits = st.visits
    ∧ (∃ su, st'.successes = st.successes ++ su)
    ∧ (st'.sample_urls = st.sample_urls
       ∨ ∃ u, st'.sample_urls = st.sample_urls ++ [u] ∧ u ≠ ""
           ∧ st.sample_urls.length < 5 ∧ u ∈ st'.successes.map (fun x => x.2.2)) := by
  cases cp with
  | fatal e posted => simp [createOutcomeStep] at h
  | done payload result err =>
    cases result with
    | none =>
      simp only [createOutcomeStep] at h
      cases h
      refine ⟨by simp; omega, by simp, by simp, ⟨[], by simp⟩, Or.inl (by simp)⟩
    | some j =>
      by_cases hj : jsonTruthy j
      · simp only [createOutcomeStep, hj, if_true] at h
        split at h
        · rename_i hcond
          cases h
          have hcond2 : j.url.getD "" ≠ "" ∧ st.sample_urls.length < 5 := by
            simpa using hcond
          refine ⟨by simp; omega, by simp, by simp, ⟨[(t, f, j.url.getD "")], by simp⟩,
            Or.inr ⟨j.url.getD "", by simp, hcond2.1, hcond2.2, by simp⟩⟩
        · cases h
          refine ⟨by simp; omega, by simp, by simp, ⟨[(t, f, j.url.getD "")], by simp⟩,
            Or.inl (by simp)⟩
      · simp only [createOutcomeStep, hj, if_false] at h
        cases h
        refine ⟨by simp; omega, by simp, by simp, ⟨[], by simp⟩, Or.inl (by simp)⟩

theorem createOutcomeStep_error_spec (t : Nat) (f : String) (st : SyncState)
    (cp : CPOutcome) (m : String) (st' : SyncState)
    (h : createOutcomeStep t f st cp = .error (m, st')) :
    ∃ cr, st'.createReqs = st.createReqs ++ cr ∧ List.Sublist cr [(t, f)] := by
  cases cp with
  | fatal e posted =>
    simp only [createOutcomeStep] at h
    cases posted with
    | true =>
      rw [if_pos rfl] at h
      cases h
      exact ⟨[(t, f)], by simp, List.Sublist.refl _⟩
    | false =>
      rw [if_neg (by simp)] at h
      cases h
      exact ⟨[], by simp, List.nil_sublist _⟩
  | done payload result err =>
    cases result with
    | none => simp [createOutcomeStep] at h
    | some j =>
      by_cases hj : jsonTruthy j
      · simp only [createOutcomeStep, hj, if_true] at h
        split at h <;> cases h
      · simp [createOutcomeStep, hj] at h

theorem processFile_ok_spec (env : Env) (t : Nat) (pid : String) (ex : List String)
    (f : String) (st st' : SyncState)
    (h : processFile env t pid ex f st = .ok st') :
    st'.created + st'.skipped + st'.errors.length
      = st.created + st.skipped + st.errors.length + 1
    ∧ (∃ cr, st'.createReqs = st.createReqs ++ cr ∧ List.Sublist cr [(t, f)] ∧ (f ∈ ex → cr = []))
    ∧ st'.visits = st.visits ++ [(t, f)]
    ∧ (∃ su, st'.successes = st.successes ++ su)
    ∧ (st'.sample_urls = st.sample_urls
       ∨ ∃ u, st'.sample_urls = st.sample_urls ++ [u] ∧ u ≠ ""
           ∧ st.sample_urls.length < 5 ∧ u ∈ st'.successes.map (fun x => x.2.2)) := by
  by_cases hf : f ∈ ex
  · rw [processFile_skip env t pid ex f st hf] at h
    cases h
    refine ⟨by simp; omega, ⟨[], by simp, List.nil_sublist _, fun _ => rfl⟩,
      by simp, ⟨[], by simp⟩, Or.inl (by simp)⟩
  · by_cases hex : env.fileExists (filePath t f) = false
    · rw [processFile_notfound env t pid ex f st hf hex] at h
      cases h
      refine ⟨by simp; omega, ⟨[], by simp, List.nil_sublist _, fun _ => rfl⟩,
        by simp, ⟨[], by simp⟩, Or.inl (by simp)⟩
    · have hex' : env.fileExists (filePath t f) = true := by
        cases hfe : env.fileExists (filePath t f)
        · exact absurd hfe hex
        · rfl
      rw [processFile_create env t pid ex f st hf hex'] at h
      rcases createOutcomeStep_ok_spec _ _ _ _ _ h with ⟨h1, h2, h3, ⟨su, h4⟩, h5⟩
      refine ⟨by simp at h1 ⊢; omega, ⟨[(t, f)], by simpa using h2, List.Sublist.refl _,
        fun hmem => absurd hmem hf⟩, by simpa using h3, ⟨su, by simpa using h4⟩, ?_⟩
      rcases h5 with h5 | ⟨u, hu⟩
      · exact Or.inl (by simpa using h5)
      · exact Or.inr ⟨u, by simpa using hu.1, hu.2.1, by simpa using hu.2.2.1,
          by simpa using hu.2.2.2⟩

theorem processFile_error_spec (env : Env) (t : Nat) (pid : String)
    (ex : List String) (f : String) (st : SyncState) (m : String) (st' : SyncState)
    (h : processFile env t pid ex f st = .error (m, st')) :
    ∃ cr, st'.createReqs = st.createReqs ++ cr ∧ List.Sublist cr [(t, f)] ∧ (f ∈ ex → cr = []) := by
  by_cases hf : f ∈ ex
  · rw [processFile_skip env t pid ex f st hf] at h
    cases h
  · by_cases hex : env.fileExists (filePath t f) = false
    · rw [processFile_notfound env t pid ex f st hf hex] at h
      cases h
    · have hex' : env.fileExists (filePath t f) = true := by
        cases hfe : env.fileExists (filePath t f)
        · exact absurd hfe hex
        · rfl
      rw [processFile_create env t pid ex f st hf hex'] at h
      rcases createOutcomeStep_error_spec _ _ _ _ _ _ h with ⟨cr, hcr, hsub⟩
      exact ⟨cr, by simpa using hcr, hsub, fun hmem => absurd hmem hf⟩

/-! ## File loop, task loop, main loop -/

theorem sampleInv_step (st st' : SyncState)
    (hsucc : ∃ su, st'.successes = st.successes ++ su)
    (hsam : st'.sample_urls = st.sample_urls
       ∨ ∃ u, st'.sample_urls = st.sample_urls ++ [u] ∧ u ≠ ""
           ∧ st.sample_urls.length < 5 ∧ u ∈ st'.successes.map (fun x => x.2.2))
    (hinv : sampleInv st) : sampleInv st' := by
  rcases hsucc with ⟨su, hsu⟩
  rcases hsam with hsam | ⟨u, hu1, hu2, hu3, hu4⟩
  · refine ⟨by rw [hsam]; exact hinv.1, ?_⟩
    intro v hv
    rw [hsam] at hv
    rcases hinv.2 v hv with ⟨hne, hmem⟩
    exact ⟨hne, by rw [hsu, List.map_append]; exact List.mem_append_left _ hmem⟩
  · constructor
    · rw [hu1]
      have := hinv.1
      simp only [List.length_append, List.length_cons, List.length_nil]
      omega
    · intro v hv
      rw [hu1] at hv
      rcases List.mem_append.mp hv with hv | hv
      · rcases hinv.2 v hv with ⟨hne, hmem⟩
        exact ⟨hne, by rw [hsu, List.map_append]; exact List.mem_append_left _ hmem⟩
      · have hvu : v = u := by simpa using hv
        subst hvu
        exact ⟨hu2, hu4⟩

theorem fileLoop_ok_spec (env : Env) (t : Nat) (pid : String) (ex : List String) :
    ∀ (fs : List String) (st st' : SyncState),
      fileLoop env t pid ex fs st = .ok st' →
      st'.created + st'.skipped + st'.errors.length
        = st.created + st.skipped + st.errors.length + fs.length
      ∧ st'.visits = st.visits ++ fs.map (fun f => (t, f))
      ∧ (sampleInv st → sampleInv st') := by
  intro fs
  induction fs with
  | nil =>
    intro st st' h
    simp only [fileLoop] at h
    cases h
    exact ⟨by simp, by simp, id⟩
  | cons f fs ih =>
    intro st st' h
    simp only [fileLoop] at h
    cases hpf : processFile env t pid ex f st with
    | error e => rw [hpf] at h; simp at h
    | ok st1 =>
      rw [hpf] at h
      rcases processFile_ok_spec env t pid ex f st st1 hpf with ⟨hc1, _, hv1, hsu1, hsam1⟩
      rcases ih st1 st' h with ⟨hc2, hv2, hinv2⟩
      refine ⟨by rw [hc2, hc1]; simp; omega, ?_, fun hinv =>
        hinv2 (sampleInv_step st st1 hsu1 hsam1 hinv)⟩
      rw [hv2, hv1]
      simp [List.append_assoc]

theorem fileLoop_reqs (env : Env) (t : Nat) (pid : String) (ex : List String) :
    ∀ (fs : List String) (st : SyncState),
      ∃ cr, (stateOfE (fileLoop env t pid ex fs st)).createReqs = st.createReqs ++ cr
        ∧ List.Sublist cr (fs.map (fun f => (t, f)))
        ∧ ∀ f0 ∈ ex, (t, f0) ∉ cr := by
  intro fs
  induction fs with
  | nil =>
    intro st
    exact ⟨[], by simp [fileLoop, stateOfE], List.nil_sublist _, by simp⟩
  | cons f fs ih =>
    intro st
    cases hpf : processFile env t pid ex f st with
    | error e =>
      rcases e with ⟨m, st1⟩
      rcases processFile_error_spec env t pid ex f st m st1 hpf with ⟨cr, hcr, hsub, hexm⟩
      refine ⟨cr, ?_, ?_, ?_⟩
      · simp only [fileLoop]
        rw [hpf]
        simpa [stateOfE] using hcr
      · rw [List.map_cons]
        exact hsub.trans (List.Sublist.cons₂ _ (List.nil_sublist _))
      · intro f0 hf0 hmem
        by_cases hff : f0 = f
        · subst hff
          rw [hexm hf0] at hmem
          simp at hmem
        · have hme := hsub.subset hmem
          simp at hme
          exact hff hme
    | ok st1 =>
      rcases processFile_ok_spec env t pid ex f st st1 hpf with
        ⟨_, ⟨cr1, hcr1, hsub1, hexm1⟩, _, _, _⟩
      rcases ih st1 with ⟨cr2, hcr2, hsub2, hexm2⟩
      refine ⟨cr1 ++ cr2, ?_, ?_, ?_⟩
      · simp only [fileLoop]
        rw [hpf, hcr2, hcr1, List.append_assoc]
      · rw [List.map_cons]
        have := List.Sublist.append hsub1 hsub2
        simpa using this
      · intro f0 hf0 hmem
        rcases List.mem_append.mp hmem with hm | hm
        · by_cases hff : f0 = f
          · subst hff
            rw [hexm1 hf0] at hm
            simp at hm
          · have hme := hsub1.subset hm
            simp at hme
            exact hff hme
        · exact hexm2 f0 hf0 hm

theorem processTask_reqs (env : Env) (t : Nat) (st : SyncState) :
    ∃ cr, (stateOfE (processTask env t st)).createReqs = st.createReqs ++ cr
      ∧ List.Sublist cr [(t, "model_a.txt"), (t, "model_b.txt")]
      ∧ ∀ f0 ∈ existingTitlesOf env t, (t, f0) ∉ cr := by
  cases hid : TASK_IDS t with
  | none =>
    refine ⟨[], ?_, List.nil_sublist _, by simp⟩
    simp [processTask, hid, stateOfE]
  | some pid =>
    cases hgec : get_existing_children env.vars (env.listStream pid) with
    | error e =>
      rcases e with ⟨m, reqs⟩
      refine ⟨[], ?_, List.nil_sublist _, by simp⟩
      simp [processTask, hid, hgec, stateOfE]
    | ok x =>
      rcases x with ⟨existing, reqs⟩
      have hex : existing = gatherTitles (env.listStream pid) [] := by
        rcases gecGo_ok_headers env.vars (env.listStream pid) none [] [] _
          (by simpa [get_existing_children] using hgec) with ⟨hd, hh⟩
        rcases get_existing_children_titles env.vars hd hh (env.listStream pid) with ⟨reqs2, h2⟩
        rw [hgec] at h2
        injection h2 with h3
        injection h3 with h4 h5
      rcases fileLoop_reqs env t pid existing expectedFiles
        { st with listReqs := st.listReqs ++ reqs.map (fun c => (pid, c)) } with
        ⟨cr, hcr, hsub, hexm⟩
      refine ⟨cr, ?_, by simpa [expectedFiles] using hsub, ?_⟩
      · have hpt : processTask env t st
            = fileLoop env t pid existing expectedFiles
                { st with listReqs := st.listReqs ++ reqs.map (fun c => (pid, c)) } := by
          simp [processTask, hid, hgec]
        rw [hpt]
        simpa using hcr
      · intro f0 hf0
        apply hexm
        simp only [existingTitlesOf, hid] at hf0
        rw [hex]
        exact hf0

theorem processTask_ok_spec (env : Env) (t : Nat) (pid : String) (st st' : SyncState)
    (hid : TASK_IDS t = some pid) (h : processTask env t st = .ok st') :
    st'.created + st'.skipped + st'.errors.length
      = st.created + st.skipped + st.errors.length + 2
    ∧ st'.visits = st.visits ++ [(t, "model_a.txt"), (t, "model_b.txt")]
    ∧ (sampleInv st → sampleInv st') := by
  simp only [processTask, hid] at h
  cases hgec : get_existing_children env.vars (env.listStream pid) with
  | error e =>
    rcases e with ⟨m, reqs⟩
    rw [hgec] at h
    simp at h
  | ok x =>
    rcases x with ⟨existing, reqs⟩
    rw [hgec] at h
    rcases fileLoop_ok_spec env t pid existing expectedFiles _ st' h with ⟨hc, hv, hinv⟩
    refine ⟨by simpa [expectedFiles] using hc, by simpa [expectedFiles] using hv,
      fun h0 => hinv ?_⟩
    exact h0

theorem mainLoop_reqs (env : Env) :
    ∀ (ts : List Nat), ts.Nodup → ∀ st : SyncState,
      ∃ cr, (stateOfE (mainLoop env ts st)).createReqs = st.createReqs ++ cr
        ∧ (∀ p ∈ cr, p.1 ∈ ts)
        ∧ cr.Nodup
        ∧ ∀ t0 f0, f0 ∈ existingTitlesOf env t0 → (t0, f0) ∉ cr := by
  intro ts
  induction ts with
  | nil =>
    intro _ st
    exact ⟨[], by simp [mainLoop, stateOfE], by simp, List.nodup_nil, by simp⟩
  | cons t ts ih =>
    intro hnd st
    have hndt : t ∉ ts := (List.nodup_cons.mp hnd).1
    have hnds : ts.Nodup := (List.nodup_cons.mp hnd).2
    rcases processTask_reqs env t st with ⟨cr1, hcr1, hsub1, hexm1⟩
    have hcr1mem : ∀ p ∈ cr1, p.1 = t := by
      intro p hp
      have hme := hsub1.subset hp
      simp at hme
      rcases hme with rfl | rfl <;> rfl
    have hpairsnd : ([(t, "model_a.txt"), (t, "model_b.txt")] :
        List (Nat × String)).Nodup := by simp
    have hcr1nd : cr1.Nodup := hpairsnd.sublist hsub1
    cases hpt : processTask env t st with
    | error e =>
      rcases e with ⟨m, st1⟩
      rw [hpt] at hcr1
      simp only [stateOfE] at hcr1
      refine ⟨cr1, ?_, ?_, hcr1nd, ?_⟩
      · simp only [mainLoop]
        rw [hpt]
        simpa [stateOfE] using hcr1
      · intro p hp
        rw [hcr1mem p hp]
        exact List.mem_cons_self t ts
      · intro t0 f0 hf0 hmem
        by_cases htt : t0 = t
        · subst htt
          exact hexm1 f0 hf0 hmem
        · exact htt (hcr1mem (t0, f0) hmem)
    | ok st1 =>
      rw [hpt] at hcr1
      simp only [stateOfE] at hcr1
      rcases ih hnds st1 with ⟨cr2, hcr2, hmem2, hnd2, hexm2⟩
      refine ⟨cr1 ++ cr2, ?_, ?_, ?_, ?_⟩
      · simp only [mainLoop]
        rw [hpt, hcr2, hcr1, List.append_assoc]
      · intro p hp
        rcases List.mem_append.mp hp with hm | hm
        · rw [hcr1mem p hm]
          exact List.mem_cons_self t ts
        · exact List.mem_cons_of_mem t (hmem2 p hm)
      · refine List.Nodup.append hcr1nd hnd2 ?_
        intro p hp1 hp2
        have h1 : p.1 = t := hcr1mem p hp1
        have h2 : p.1 ∈ ts := hmem2 p hp2
        rw [h1] at h2
        exact hndt h2
      · intro t0 f0 hf0 hmem
        rcases List.mem_append.mp hmem with hm | hm
        · by_cases htt : t0 = t
          · subst htt
            exact hexm1 f0 hf0 hm
          · exact htt (hcr1mem (t0, f0) hm)
        · exact hexm2 t0 f0 hf0 hm

theorem mainLoop_ok_spec (env : Env) :
    ∀ (ts : List Nat) (st st' : SyncState),
      (∀ t ∈ ts, (TASK_IDS t).isSome = true) →
      mainLoop env ts st = .ok st' →
      st'.created + st'.skipped + st'.errors.length
        = st.created + st.skipped + st.errors.length + 2 * ts.length
      ∧ st'.visits = st.visits
          ++ ts.flatMap (fun t => [(t, "model_a.txt"), (t, "model_b.txt")])
      ∧ (sampleInv st → sampleInv st') := by
  intro ts
  induction ts with
  | nil =>
    intro st st' _ h
    simp only [mainLoop] at h
    cases h
    exact ⟨by simp, by simp, id⟩
  | cons t ts ih =>
    intro st st' hmap h
    have hpid : ∃ pid, TASK_IDS t = some pid := by
      have hs := hmap t (List.mem_cons_self t ts)
      cases hti : TASK_IDS t
      · rw [hti] at hs; simp at hs
      · exact ⟨_, rfl⟩
    rcases hpid with ⟨pid, hpid⟩
    simp only [mainLoop] at h
    cases hpt : processTask env t st with
    | error e => rw [hpt] at h; simp at h
    | ok st1 =>
      rw [hpt] at h
      rcases processTask_ok_spec env t pid st st1 hpid hpt with ⟨hc1, hv1, hinv1⟩
      rcases ih st1 st' (fun x hx => hmap x (List.mem_cons_of_mem t hx)) h with
        ⟨hc2, hv2, hinv2⟩
      refine ⟨?_, ?_, fun hinv => hinv2 (hinv1 hinv)⟩
      · rw [hc2, hc1]
        simp only [List.length_cons]
        omega
      · rw [hv2, hv1]
        simp [List.append_assoc]

theorem stateOf_main (env : Env) :
    stateOf (main env) = stateOfE (mainLoop env (List.range' 1 20) initState) := by
  rcases h : mainLoop env (List.range' 1 20) initState with e | s
  · rcases e with ⟨m, s⟩
    simp [main, h, stateOf, stateOfE]
  · simp [main, h, stateOf, stateOfE]

/-! ## Claims about the driver -/

theorem count_le_one_of_nodup (l : List (Nat × String)) (h : l.Nodup)
    (p : Nat × String) : List.count p l ≤ 1 := by
  induction l with
  | nil => simp
  | cons q rest ih =>
    have hnd := List.nodup_cons.mp h
    by_cases hpq : p = q
    · subst hpq
      have hz : List.count p rest = 0 := List.count_eq_zero.mpr hnd.1
      simp [List.count_cons, hz]
    · rw [List.count_cons]
      simp only [beq_iff_eq]
      rw [if_neg (show ¬ q = p from fun hqp => hpq hqp.symm)]
      simpa using ih hnd.2

/-- C2: in any run, the driver issues at most one creation request per
(task, filename) pair; a filename listed among a task's existing children is
never submitted for creation for that task; and a completed run's inner
iteration visits each of the 40 pairs exactly once, in order. -/
theorem c2_at_most_one_creation (env : Env) (t : Nat) (f : String) :
    List.count (t, f) (stateOf (main env)).createReqs ≤ 1
    ∧ (f ∈ existingTitlesOf env t → (t, f) ∉ (stateOf (main env)).createReqs)
    ∧ ∀ c st, main env = .exited c st → st.visits = allPairs := by
  have hnd : (List.range' 1 20).Nodup := by decide
  rcases mainLoop_reqs env (List.range' 1 20) hnd initState with ⟨cr, hcr, hmem, hcrnd, hexm⟩
  have hst : (stateOf (main env)).createReqs = cr := by
    rw [stateOf_main, hcr]
    simp [initState]
  refine ⟨?_, ?_, ?_⟩
  · rw [hst]
    exact count_le_one_of_nodup cr hcrnd (t, f)
  · intro hf
    rw [hst]
    exact hexm t f hf
  · intro c st hms
    rcases hml : mainLoop env (List.range' 1 20) initState with ⟨m, s⟩ | s
    · simp [main, hml] at hms
    · simp only [main, hml] at hms
      injection hms with h1 h2
      subst h2
      rcases mainLoop_ok_spec env (List.range' 1 20) initState s (by decide) hml with
        ⟨_, hv, _⟩
      rw [allPairs]
      simpa [initState] using hv

/-- Witness for C2 at a concrete run where every title is already listed. -/
theorem c2_at_most_one_creation_witness :
    "model_a.txt" ∈ existingTitlesOf envBoth 1
    ∧ List.count (1, "model_a.txt") (stateOf (main envBoth)).createReqs ≤ 1
    ∧ (1, "model_a.txt") ∉ (stateOf (main envBoth)).createReqs
    ∧ main envBoth = .exited 0 (stateOf (main envBoth))
    ∧ (stateOf (main envBoth)).visits = allPairs :=
  ⟨by decide, (c2_at_most_one_creation envBoth 1 "model_a.txt").1,
   (c2_at_most_one_creation envBoth 1 "model_a.txt").2.1 (by decide),
   by decide,
   (c2_at_most_one_creation envBoth 1 "model_a.txt").2.2 0 (stateOf (main envBoth))
     (by decide)⟩

/-- C3: a task whose listing already contains both expected titles gets
exactly two more skips and no change to the created count, the error list,
the creation-request trace or the file-read trace. -/
theorem c3_both_listed_skips (env : Env) (t : Nat) (st : SyncState) (pid : String)
    (titles : List String) (reqs : List (Option String))
    (hid : TASK_IDS t = some pid)
    (hgec : get_existing_children env.vars (env.listStream pid) = .ok (titles, reqs))
    (ha : "model_a.txt" ∈ titles) (hb : "model_b.txt" ∈ titles) :
    ∃ st', processTask env t st = .ok st'
      ∧ st'.skipped = st.skipped + 2
      ∧ st'.created = st.created
      ∧ st'.errors = st.errors
      ∧ st'.createReqs = st.createReqs
      ∧ st'.fileReads = st.fileReads := by
  have hpt : processTask env t st
      = fileLoop env t pid titles expectedFiles
          { st with listReqs := st.listReqs ++ reqs.map (fun c => (pid, c)) } := by
    simp [processTask, hid, hgec]
  have hrun : processTask env t st = .ok
      { st with listReqs := st.listReqs ++ reqs.map (fun c => (pid, c)),
                visits := st.visits ++ [(t, "model_a.txt")] ++ [(t, "model_b.txt")],
                skipped := st.skipped + 1 + 1 } := by
    rw [hpt, show expectedFiles = ["model_a.txt", "model_b.txt"] from rfl]
    simp only [fileLoop]
    rw [processFile_skip env t pid titles "model_a.txt" _ ha]
    simp only [fileLoop]
    rw [processFile_skip env t pid titles "model_b.txt" _ hb]
  exact ⟨_, hrun, rfl, rfl, rfl, rfl, rfl⟩

/-- Witness for C3 at a concrete task whose listing shows both titles. -/
theorem c3_both_listed_skips_witness :
    TASK_IDS 1 = some "3132484b-84ae-81b8-a2cb-deff086bb4d0"
    ∧ get_existing_children envBoth.vars
        (envBoth.listStream "3132484b-84ae-81b8-a2cb-deff086bb4d0")
        = .ok (["model_a.txt", "model_b.txt"], [none])
    ∧ "model_a.txt" ∈ ["model_a.txt", "model_b.txt"]
    ∧ "model_b.txt" ∈ ["model_a.txt", "model_b.txt"]
    ∧ ∃ st', processTask envBoth 1 initState = .ok st'
        ∧ st'.skipped = initState.skipped + 2
        ∧ st'.created = initState.created
        ∧ st'.errors = initState.errors
        ∧ st'.createReqs = initState.createReqs
        ∧ st'.fileReads = initState.fileReads :=
  ⟨rfl, rfl, by decide, by decide,
   c3_both_listed_skips envBoth 1 initState "3132484b-84ae-81b8-a2cb-deff086bb4d0"
     ["model_a.txt", "model_b.txt"] [none] rfl rfl (by decide) (by decide)⟩

/-- C4: a completed run returns exit value 0 iff the accumulated error list
is empty, and 1 otherwise. -/
theorem c4_exit_code (env : Env) (c : Nat) (st : SyncState)
    (h : main env = .exited c st) :
    (c = 0 ↔ st.errors = []) ∧ (st.errors ≠ [] → c = 1) := by
  rcases hml : mainLoop env (List.range' 1 20) initState with ⟨m, s⟩ | s
  · simp [main, hml] at h
  · simp only [main, hml] at h
    injection h with h1 h2
    subst h2
    subst h1
    by_cases he : s.errors = [] <;> simp [he]

/-- Witness for C4 at a concrete run ending with errors and exit value 1. -/
theorem c4_exit_code_witness :
    main envMissing = .exited 1 (stateOf (main envMissing))
    ∧ ((1 = 0 ↔ (stateOf (main envMissing)).errors = [])
       ∧ ((stateOf (main envMissing)).errors ≠ [] → 1 = 1)) :=
  ⟨by decide, c4_exit_code envMissing 1 (stateOf (main envMissing)) (by decide)⟩

/-- C6: with neither credential variable holding a truthy value, the run
aborts with the missing-credential message while the observable state is
still the initial one: no result recorded, no request issued, no file read. -/
theorem c6_missing_credential (env : Env)
    (ha : truthyStr (env.vars "NOTION_API_KEY") = false)
    (hb : truthyStr (env.vars "NOTION_KEY") = false) :
    main env = .aborted
      "Error: NOTION_API_KEY or NOTION_KEY environment variable required"
      initState := by
  have hh : get_headers env.vars = .error
      "Error: NOTION_API_KEY or NOTION_KEY environment variable required" := by
    simp [get_headers, ha, hb]
  have h1 : processTask env 1 initState = .error
      ("Error: NOTION_API_KEY or NOTION_KEY environment variable required",
        initState) := by
    have hid : TASK_IDS 1 = some "3132484b-84ae-81b8-a2cb-deff086bb4d0" := rfl
    have hge : get_existing_children env.vars
        (env.listStream "3132484b-84ae-81b8-a2cb-deff086bb4d0")
        = .error
          ("Error: NOTION_API_KEY or NOTION_KEY environment variable required",
            []) := by
      rw [get_existing_children]
      exact gecGo_err env.vars _ hh _ none [] []
    simp [processTask, hid, hge]
  have hml : mainLoop env (List.range' 1 20) initState = .error
      ("Error: NOTION_API_KEY or NOTION_KEY environment variable required",
        initState) := by
    rw [show List.range' 1 20 = 1 :: List.range' 2 19 from rfl]
    simp only [mainLoop]
    rw [h1]
  simp [main, hml]

/-- Witness for C6 with no environment variable set at all. -/
theorem c6_missing_credential_witness :
    truthyStr (envNoVars.vars "NOTION_API_KEY") = false
    ∧ truthyStr (envNoVars.vars "NOTION_KEY") = false
    ∧ main envNoVars = .aborted
        "Error: NOTION_API_KEY or NOTION_KEY environment variable required"
        initState :=
  ⟨rfl, rfl, c6_missing_credential envNoVars rfl rfl⟩

theorem statusMsg_ne_empty (n : Nat) (body : String) :
    toString n ++ ": " ++ body ≠ "" := by
  intro hcontra
  have hlen := congrArg String.length hcontra
  rw [String.length_append, String.length_append,
    show (": ").length = 2 from rfl, show ("" : String).length = 0 from rfl] at hlen
  omega

theorem create_child_page_failure (vars : String → Option String)
    (hd : List (String × String)) (hh : get_headers vars = .ok hd)
    (resp : RespBody) (h200 : resp.status_code ≠ 200) (h201 : resp.status_code ≠ 201)
    (pid f content : String) :
    create_child_page vars resp pid f content
      = .done (mkCreatePayload pid f content) none
          (some (toString resp.status_code ++ ": " ++ bodyMsg resp)) := by
  simp only [create_child_page, hh]
  rw [if_neg (by simp [h200, h201])]
  rw [bodyMsg]

/-- C7: a creation response whose status is neither 200 nor 201 produces the
error string "status: msg", msg being the body's message field when present,
else its code field, else the raw text; and the driver leaves the created
and skipped counts unchanged by that failure, appending only the error. -/
theorem c7_create_failure (vars : String → Option String)
    (hd : List (String × String)) (hh : get_headers vars = .ok hd)
    (resp : RespBody) (h200 : resp.status_code ≠ 200)
    (h201 : resp.status_code ≠ 201) :
    (∀ pid f content j m, resp.json = some j → j.message = some m →
      create_child_page vars resp pid f content
        = .done (mkCreatePayload pid f content) none
            (some (toString resp.status_code ++ ": " ++ m)))
    ∧ (∀ pid f content j cde, resp.json = some j → j.message = none →
        j.code = some cde →
      create_child_page vars resp pid f content
        = .done (mkCreatePayload pid f content) none
            (some (toString resp.status_code ++ ": " ++ cde)))
    ∧ (∀ pid f content j, resp.json = some j → j.message = none → j.code = none →
      create_child_page vars resp pid f content
        = .done (mkCreatePayload pid f content) none
            (some (toString resp.status_code ++ ": " ++ resp.text)))
    ∧ (∀ pid f content, resp.json = none →
      create_child_page vars resp pid f content
        = .done (mkCreatePayload pid f content) none
            (some (toString resp.status_code ++ ": " ++ resp.text)))
    ∧ ∀ (env : Env) (t : Nat) (pid : String) (ex : List String) (f : String)
        (st : SyncState),
        env.vars = vars →
        env.createResp pid f (env.fileContent (filePath t f)) = resp →
        f ∉ ex → env.fileExists (filePath t f) = true →
        ∃ st', processFile env t pid ex f st = .ok st'
          ∧ st'.created = st.created
          ∧ st'.skipped = st.skipped
          ∧ st'.errors = st.errors ++ [fileErrPrefix t f
              ++ (toString resp.status_code ++ ": " ++ bodyMsg resp)] := by
  refine ⟨?_, ?_, ?_, ?_, ?_⟩
  · intro pid f content j m hj hm
    rw [create_child_page_failure vars hd hh resp h200 h201]
    simp [bodyMsg, hj, hm]
  · intro pid f content j cde hj hm hcde
    rw [create_child_page_failure vars hd hh resp h200 h201]
    simp [bodyMsg, hj, hm, hcde]
  · intro pid f content j hj hm hcde
    rw [create_child_page_failure vars hd hh resp h200 h201]
    simp [bodyMsg, hj, hm, hcde]
  · intro pid f content hj
    rw [create_child_page_failure vars hd hh resp h200 h201]
    simp [bodyMsg, hj]
  · intro env t pid ex f st henv hresp hf hex
    have hres : processFile env t pid ex f st
        = .ok { st with visits := st.visits ++ [(t, f)],
                        fileReads := st.fileReads ++ [filePath t f],
                        createReqs := st.createReqs ++ [(t, f)],
                        errors := st.errors ++ [fileErrPrefix t f
                          ++ (toString resp.status_code ++ ": " ++ bodyMsg resp)] } := by
      rw [processFile_create env t pid ex f st hf hex, henv, hresp,
        create_child_page_failure vars hd hh resp h200 h201]
      simp only [createOutcomeStep]
      rw [errOrDefault, if_neg (statusMsg_ne_empty resp.status_code (bodyMsg resp))]
    exact ⟨_, hres, rfl, rfl, rfl⟩

/-- Witness for C7 at a concrete 409 response with body message "conflict". -/
theorem c7_create_failure_witness :
    get_headers vars0 = .ok headers0
    ∧ resp409.status_code ≠ 200
    ∧ resp409.status_code ≠ 201
    ∧ resp409.json = some ⟨some "conflict", none, none, false⟩
    ∧ create_child_page vars0 resp409 "p" "model_a.txt" "hi"
        = .done (mkCreatePayload "p" "model_a.txt" "hi") none (some "409: conflict")
    ∧ ∃ st', processFile env409 1 "p" [] "model_a.txt" initState = .ok st'
        ∧ st'.created = initState.created
        ∧ st'.skipped = initState.skipped
        ∧ st'.errors = initState.errors ++ [fileErrPrefix 1 "model_a.txt"
            ++ (toString resp409.status_code ++ ": " ++ bodyMsg resp409)] := by
  refine ⟨rfl, by decide, by decide, rfl, ?_, ?_⟩
  · have h := (c7_create_failure vars0 headers0 rfl resp409 (by decide) (by decide)).1
      "p" "model_a.txt" "hi" ⟨some "conflict", none, none, false⟩ "conflict" rfl rfl
    rw [show toString resp409.status_code ++ ": " ++ "conflict" = "409: conflict"
      from by decide] at h
    exact h
  · exact (c7_create_failure vars0 headers0 rfl resp409 (by decide)
      (by decide)).2.2.2.2 env409 1 "p" [] "model_a.txt" initState rfl rfl
      (by simp) rfl

/-- C8: a task whose two expected files are both absent on disk (and whose
titles are not listed) records exactly the two "File not found" errors and
issues no creation request, leaving created and skipped unchanged. -/
theorem c8_both_files_missing (env : Env) (t : Nat) (st : SyncState) (pid : String)
    (titles : List String) (reqs : List (Option String))
    (hid : TASK_IDS t = some pid)
    (hgec : get_existing_children env.vars (env.listStream pid) = .ok (titles, reqs))
    (hna : "model_a.txt" ∉ titles) (hnb : "model_b.txt" ∉ titles)
    (hfa : env.fileExists (filePath t "model_a.txt") = false)
    (hfb : env.fileExists (filePath t "model_b.txt") = false) :
    ∃ st', processTask env t st = .ok st'
      ∧ st'.errors = st.errors
          ++ [fileErrPrefix t "model_a.txt" ++ "File not found",
              fileErrPrefix t "model_b.txt" ++ "File not found"]
      ∧ st'.createReqs = st.createReqs
      ∧ st'.created = st.created
      ∧ st'.skipped = st.skipped := by
  have hpt : processTask env t st
      = fileLoop env t pid titles expectedFiles
          { st with listReqs := st.listReqs ++ reqs.map (fun c => (pid, c)) } := by
    simp [processTask, hid, hgec]
  have hrun : processTask env t st = .ok
      { st with listReqs := st.listReqs ++ reqs.map (fun c => (pid, c)),
                visits := st.visits ++ [(t, "model_a.txt")] ++ [(t, "model_b.txt")],
                errors := st.errors
                  ++ [fileErrPrefix t "model_a.txt" ++ "File not found"]
                  ++ [fileErrPrefix t "model_b.txt" ++ "File not found"] } := by
    rw [hpt, show expectedFiles = ["model_a.txt", "model_b.txt"] from rfl]
    simp only [fileLoop]
    rw [processFile_notfound env t pid titles "model_a.txt" _ hna hfa]
    simp only [fileLoop]
    rw [processFile_notfound env t pid titles "model_b.txt" _ hnb hfb]
  exact ⟨_, hrun, by simp, rfl, rfl, rfl⟩

/-- Witness for C8 at a concrete task with empty listing and no files. -/
theorem c8_both_files_missing_witness :
    TASK_IDS 2 = some "3132484b-84ae-8156-8da3-d147e36748ea"
    ∧ get_existing_children envMissing.vars
        (envMissing.listStream "3132484b-84ae-8156-8da3-d147e36748ea")
        = .ok ([], [none])
    ∧ "model_a.txt" ∉ ([] : List String)
    ∧ envMissing.fileExists (filePath 2 "model_a.txt") = false
    ∧ ∃ st', processTask envMissing 2 initState = .ok st'
        ∧ st'.errors = initState.errors
            ++ [fileErrPrefix 2 "model_a.txt" ++ "File not found",
                fileErrPrefix 2 "model_b.txt" ++ "File not found"]
        ∧ st'.createReqs = initState.createReqs
        ∧ st'.created = initState.created
        ∧ st'.skipped = initState.skipped :=
  ⟨rfl, rfl, by decide, rfl,
   c8_both_files_missing envMissing 2 initState "3132484b-84ae-8156-8da3-d147e36748ea"
     [] [none] rfl rfl (by decide) (by decide) rfl rfl⟩

theorem fragJoin_aux : ∀ (frags : List Fragment) (acc : String),
    List.foldl (fun r s => r ++ s) acc (fragParts frags)
      = List.foldl (fun r s => r ++ s) acc (frags.map fragPlainText) := by
  intro frags
  induction frags with
  | nil => intro acc; rfl
  | cons fr rest ih =>
    intro acc
    cases fr with
    | dict p =>
      simp only [fragParts, fragPlainText, List.map_cons, List.foldl_cons]
      exact ih _
    | nondict =>
      simp only [fragParts, fragPlainText, List.map_cons, List.foldl_cons,
        String.append_empty]
      exact ih acc

theorem fragParts_join (frags : List Fragment) :
    String.join (fragParts frags) = String.join (frags.map fragPlainText) := by
  simp only [String.join]
  exact fragJoin_aux frags ""

/-- C9 (amended): each listed child-page title is normalized to one plain
string — a string title as-is, a fragment-list title as the concatenation of
its fragments' plain-text fields — while a title of unrecognized shape is
converted with str() and silently accepted into the existing-titles set; the
listing returns successfully rather than treating it as a failure. -/
theorem c9_title_normalization (vars : String → Option String)
    (hd : List (String × String)) (hh : get_headers vars = .ok hd)
    (s : String) (frags : List Fragment) (r : String) :
    get_existing_children vars
      [⟨200, [cpBlock (.str s), cpBlock (.list frags), cpBlock (.other r)],
        false, none⟩]
      = .ok (setAdd (setAdd (setAdd [] s)
          (String.join (frags.map fragPlainText))) r, [none]) := by
  rw [get_existing_children, gecGo_cons vars hd hh, if_neg (by simp),
    if_neg (by simp)]
  simp [addBlocks, cpBlock, blockTitle, normalizeTitle, fragParts_join]

/-- Witness for C9 (amended) at concrete titles of all three shapes. -/
theorem c9_title_normalization_witness :
    get_headers vars0 = .ok headers0
    ∧ get_existing_children vars0
        [⟨200, [cpBlock (.str "Doc"),
                cpBlock (.list [.dict (some "He"), .nondict, .dict none,
                  .dict (some "llo")]),
                cpBlock (.other "<TitleObject 123>")], false, none⟩]
        = .ok (setAdd (setAdd (setAdd [] "Doc")
            (String.join ([Fragment.dict (some "He"), .nondict, .dict none,
              .dict (some "llo")].map fragPlainText))) "<TitleObject 123>",
            [none]) :=
  ⟨rfl, c9_title_normalization vars0 headers0 rfl "Doc"
    [.dict (some "He"), .nondict, .dict none, .dict (some "llo")]
    "<TitleObject 123>"⟩

/-- C9 (counterexample): a title of unrecognized shape is not an assertion
failure — the listing returns successfully with the str() rendering of the
unrecognized value silently accepted into the existing-titles set. -/
theorem c9_counterexample :
    get_existing_children vars0
      [⟨200, [cpBlock (.other "<TitleObject 123>")], false, none⟩]
      = .ok (["<TitleObject 123>"], [none]) := rfl

/-- C10: a completed run satisfies created + skipped + errors = 40 — exactly
one outcome per (task, filename) pair of the 20 mapped tasks — and its
sample-URL list has at most five entries, each a nonempty URL of a recorded
successful creation. -/
theorem c10_outcome_partition (env : Env) :
    match main env with
    | .exited _ st =>
        st.created + st.skipped + st.errors.length = 40
        ∧ st.sample_urls.length ≤ 5
        ∧ ∀ u ∈ st.sample_urls, u ≠ "" ∧ u ∈ st.successes.map (fun x => x.2.2)
    | .aborted _ _ => True := by
  rcases hml : mainLoop env (List.range' 1 20) initState with ⟨m, s⟩ | s
  · simp [main, hml]
  · have hms : main env = .exited (if s.errors = [] then 0 else 1) s := by
      simp [main, hml]
    rw [hms]
    rcases mainLoop_ok_spec env (List.range' 1 20) initState s (by decide) hml with
      ⟨hc, _, hinv⟩
    have hinv0 : sampleInv initState := ⟨by simp [initState], by simp [initState]⟩
    rcases hinv hinv0 with ⟨hlen, hmem⟩
    exact ⟨by rw [hc]; simp [initState], hlen, hmem⟩

/-- Witness for C10 at a concrete run that creates all 40 pages and fills
the sample list to its cap. -/
theorem c10_outcome_partition_witness :
    main envCreate = .exited 0 (stateOf (main envCreate))
    ∧ (stateOf (main envCreate)).created + (stateOf (main envCreate)).skipped
        + (stateOf (main envCreate)).errors.length = 40
    ∧ (stateOf (main envCreate)).sample_urls.length ≤ 5
    ∧ ∀ u ∈ (stateOf (main envCreate)).sample_urls,
        u ≠ "" ∧ u ∈ (stateOf (main envCreate)).successes.map (fun x => x.2.2) := by
  have h := c10_outcome_partition envCreate
  have hme : main envCreate = .exited 0 (stateOf (main envCreate)) := by decide
  rw [hme] at h
  exact ⟨hme, h⟩

end SyncNotion
